import Mathlib

/-!
Shallow embedding of the balter load-generation engine's closed-loop control
core, translated from the Rust sources:

* `src/balter/src/sampler/concurrency_adjusted_sampler.rs`
  (`ConcurrencyAdjustedSampler`: `sample`, `adjust_concurrency`,
  `detect_underpowered`, `set_tps_limit`)
* `src/balter/src/scenario/tps_sampler.rs`
  (`ConcurrentSampler::set_goal_tps`, `TpsSampler::sample_tps` interval
  adaptation, `TpsSampler::set_concurrency`, `TpsSampler::set_tps_limit`)
* `src/balter-core/src/scenario/goal_tps.rs` (`distribute_work`)

Modelling conventions:

* Rust `f64` values (tps, slopes, error ratios) are modelled as exact
  rationals `ℚ`.  The only places where IEEE-754 special values matter for
  control flow are modelled explicitly: the slope computation can produce
  `±∞` (division of a nonzero difference by a `0.0` concurrency delta), and
  float-to-integer `as` casts saturate (`ratCeilToUsize`, `ratFloorToUsize`,
  `ratTruncToU32`).
* Rust machine integers are `Nat`; where wrap-around of `usize`/`u32`
  subtraction matters (release-mode two's-complement wrapping) it is written
  explicitly as `(a + 2 ^ w - b) % 2 ^ w`.
* Panicking operations (`NonZeroU32::new(..).unwrap()`,
  `set_concurrency(0)`, `Duration` subtraction underflow) return
  `Except Panic _`.
-/

deriving instance DecidableEq for Except

namespace Balter

/-- Panic outcomes of the embedded code paths. -/
inductive Panic where
  /-- `Option::unwrap` / `NonZeroU32::new(0).unwrap()` panics. -/
  | unwrapNone
  /-- `TpsSampler::set_concurrency` (and the base sampler's equivalent)
  panics when asked to store a pool size of 0 outside shutdown. -/
  | setConcurrencyZero
  /-- `Duration - Duration` panics on underflow. -/
  | durationSubUnderflow
deriving DecidableEq, Repr

/-- Largest `usize` value (64-bit target). -/
def USIZE_MAX : Nat := 2 ^ 64 - 1

/-- Largest `u32` value. -/
def U32_MAX : Nat := 2 ^ 32 - 1

/-- `const MAX_CHANGE: usize = 100` from `concurrency_adjusted_sampler.rs`. -/
def MAX_CHANGE : Nat := 100

/-- Result of an `f64` computation that may be infinite: the slope
`(t1 - t0) / ((c1 - c0) as f64)` is `±∞` when the concurrency delta casts
to `0.0` but the tps delta is nonzero.  (The NaN case, `0.0 / 0.0`, is
replaced by `0.0` by the code itself before it is stored, so `fin 0`
represents it.) -/
inductive FloatVal where
  | fin (q : ℚ)
  | posInf
  | negInf
deriving DecidableEq, Repr

/-- The `*m < 1.` test applied to each collected slope: `+∞ < 1` is false,
`-∞ < 1` is true. -/
def slopeLt1 : FloatVal → Bool
  | .fin q => decide (q < 1)
  | .posInf => false
  | .negInf => true

/-- Rust `expr as usize` applied to a (finite) `f64` after `.floor()` or for
a value that is already integral: truncates toward zero and saturates at
`0` and `usize::MAX`.  For `q ≥ 0` truncation equals `⌊q⌋`; for `q < 0` the
saturation yields `0`, which `Int.toNat` also yields. -/
def ratFloorToUsize (q : ℚ) : Nat := min (⌊q⌋.toNat) USIZE_MAX

/-- Rust `expr.ceil() as usize`: ceiling, then the saturating cast. -/
def ratCeilToUsize (q : ℚ) : Nat := min (⌈q⌉.toNat) USIZE_MAX

/-- Rust `tps as u32` for a finite `f64` tps: truncate toward zero,
saturating at `0` and `u32::MAX`. -/
def ratTruncToU32 (q : ℚ) : Nat := min (⌊q⌋.toNat) U32_MAX

/-- One slope of `detect_underpowered`'s `windows(2)` map:
`let slope = (t1 - t0) / (c1 - c0) as f64;`.  The `usize` subtraction
`c1 - c0` wraps (release semantics), so a backward window produces a huge
denominator; an equal-concurrency window produces a `0.0` denominator,
giving `±∞`, or NaN when the tps delta is also zero — the code replaces the
NaN by `0.` (`if slope.is_nan() { return 0.; }`). -/
def slopePair (p0 p1 : Nat × ℚ) : FloatVal :=
  let dc : Nat := (p1.1 + 2 ^ 64 - p0.1) % 2 ^ 64
  if dc = 0 then
    if p1.2 = p0.2 then .fin 0
    else if p0.2 < p1.2 then .posInf
    else .negInf
  else .fin ((p1.2 - p0.2) / (dc : ℚ))

/-- `self.measurements.windows(2).map(..).collect()` from
`detect_underpowered`. -/
def slopes : List (Nat × ℚ) → List FloatVal
  | p0 :: p1 :: rest => slopePair p0 p1 :: slopes (p1 :: rest)
  | _ => []

/-- The trigger condition of `detect_underpowered`:
`slopes.len() > 2 && slopes.iter().rev().take(2).all(|m| *m < 1.)`. -/
def underpoweredCond (ms : List (Nat × ℚ)) : Prop :=
  2 < (slopes ms).length ∧ ((slopes ms).reverse.take 2).all slopeLt1 = true

instance (ms : List (Nat × ℚ)) : Decidable (underpoweredCond ms) := by
  unfold underpoweredCond; infer_instance

/-- The indexing `self.measurements[self.measurements.len() - 3]` performed
by `detect_underpowered` on trigger (in bounds there, since more than 2
slopes means at least 4 measurements). -/
def thirdFromLast (ms : List (Nat × ℚ)) : Nat × ℚ :=
  ms.getD (ms.length - 3) (0, 0)

/-- `ConcurrencyAdjustedSampler::detect_underpowered`.  On trigger it reads
the third-from-last measurement and builds
`NonZeroU32::new(tps as u32).unwrap()` — a panic when the tps truncates
to zero. -/
def detect_underpowered (ms : List (Nat × ℚ)) : Except Panic (Option (Nat × Nat)) :=
  if underpoweredCond ms then
    let p := thirdFromLast ms
    let max_tps := ratTruncToU32 p.2
    if max_tps = 0 then .error .unwrapNone
    else .ok (some (max_tps, p.1))
  else
    .ok none

/-- State of a `ConcurrencyAdjustedSampler` together with the fields of its
inner base sampler that the control logic reads and writes
(`concurrency`, `tps_limit`). -/
structure CAState where
  concurrency : Nat
  tps_limit : Nat
  measurements : List (Nat × ℚ)
  starting_concurrency : Nat
  tps_limited : Bool
deriving DecidableEq, Repr

/-- Modelled from the spec: the inner base sampler's `set_tps_limit` (its
source file is not under `src/`); §4.4: "if n ≠ current, replace the shared
limiter and update `tps_limit`".  This matches the in-tree
`TpsSampler::set_tps_limit` of `tps_sampler.rs`. -/
def base_set_tps_limit (s : CAState) (limit : Nat) : CAState :=
  if limit ≠ s.tps_limit then { s with tps_limit := limit } else s

/-- The proposed concurrency of `adjust_concurrency`:
`let adjustment = goal_tps / measured_tps;`
`let new_concurrency = (concurrency as f64 * adjustment).ceil() as usize;`.
With `measured_tps = 0.0` the division is `±∞` (or NaN for a zero goal),
and the product with a positive concurrency stays `+∞` for a positive goal,
so the saturating cast yields `usize::MAX`; a zero concurrency or
nonpositive goal makes the product NaN or nonpositive, and the cast
yields `0`. -/
def propose_concurrency (concurrency : Nat) (goal_tps measured_tps : ℚ) : Nat :=
  if measured_tps = 0 then
    if concurrency ≠ 0 ∧ 0 < goal_tps then USIZE_MAX else 0
  else
    ratCeilToUsize ((concurrency : ℚ) * (goal_tps / measured_tps))

/-- The clamping of the proposed concurrency in `adjust_concurrency`:
`let new_concurrency_step = new_concurrency - concurrency;` (`usize`
subtraction, wrapping in release builds) followed by
`if new_concurrency_step > MAX_CHANGE { concurrency + MAX_CHANGE } else
{ new_concurrency }`. -/
def clamped_concurrency (concurrency : Nat) (goal_tps measured_tps : ℚ) : Nat :=
  let new_concurrency := propose_concurrency concurrency goal_tps measured_tps
  let new_concurrency_step := (new_concurrency + 2 ^ 64 - concurrency) % 2 ^ 64
  if MAX_CHANGE < new_concurrency_step then concurrency + MAX_CHANGE else new_concurrency

/-- `ConcurrencyAdjustedSampler::adjust_concurrency`.  Returns the
concurrency value the caller will apply, together with the updated state.
On the underpowered branch the code sets `tps_limited`, funnels `max_tps`
into the base sampler, and returns
`(concurrency as f64 * CONCURRENCY_SET_ADJUSTMENT) as usize` with
`CONCURRENCY_SET_ADJUSTMENT = 0.75`. -/
def adjust_concurrency (s : CAState) (measured_tps : ℚ) : Except Panic (Nat × CAState) :=
  let concurrency := s.concurrency
  let goal_tps : ℚ := (s.tps_limit : ℚ)
  let s1 : CAState := { s with measurements := s.measurements ++ [(concurrency, measured_tps)] }
  let new_concurrency := clamped_concurrency concurrency goal_tps measured_tps
  if new_concurrency = 0 then
    .ok (s1.starting_concurrency, s1)
  else
    match detect_underpowered s1.measurements with
    | .error e => .error e
    | .ok (some (max_tps, conc)) =>
        .ok (ratFloorToUsize ((conc : ℚ) * (3 / 4)),
             { base_set_tps_limit s1 max_tps with tps_limited := true })
    | .ok none => .ok (new_concurrency, s1)

/-- Modelled from the spec: the inner base sampler's `set_concurrency` (its
source file is not under `src/`); §4.3 requires `n > 0` and §7 declares
`set_concurrency(0)` outside shutdown a fatal contract violation.  This
matches the in-tree `TpsSampler::set_concurrency` of `tps_sampler.rs`,
which panics on 0. -/
def base_set_concurrency (s : CAState) (n : Nat) : Except Panic CAState :=
  if n ≠ 0 then .ok { s with concurrency := n } else .error .setConcurrencyZero

/-- `ConcurrencyAdjustedSampler::sample`, with the window's
`samples.mean_tps()` supplied as the `measured_tps` argument.  Returns the
stability flag the method reports, plus the updated state after the
controller decision has been applied to the sampler. -/
def ca_sample (s : CAState) (measured_tps : ℚ) : Except Panic (Bool × CAState) :=
  let goal_tps : ℚ := (s.tps_limit : ℚ)
  let error := (goal_tps - measured_tps) / goal_tps
  if error < 1 / 20 then
    .ok (true, s)
  else
    match adjust_concurrency s measured_tps with
    | .error e => .error e
    | .ok (new_concurrency, s1) =>
        match base_set_concurrency s1 new_concurrency with
        | .error e => .error e
        | .ok s2 => .ok (false, s2)

/-- `ConcurrencyAdjustedSampler::set_tps_limit`: ignore an increase once
`tps_limited` has latched, otherwise delegate to the base sampler. -/
def set_tps_limit (s : CAState) (limit : Nat) : CAState :=
  if s.tps_limit < limit ∧ s.tps_limited = true then s
  else base_set_tps_limit s limit

/-- Iterated `sample` calls with a given list of measured mean-tps values:
one full decision cycle per element. -/
def runSamples (s : CAState) : List ℚ → Except Panic CAState
  | [] => .ok s
  | m :: rest =>
    match ca_sample s m with
    | .error e => .error e
    | .ok (_, s1) => runSamples s1 rest

/-- State of a `ConcurrentSampler` (`tps_sampler.rs`) as far as
`set_goal_tps` touches it: the inner `TpsSampler`'s `tps_limit`, the
concurrency controller's goal (its `set_goal_tps` just stores the new
goal), and the `needs_clear` / `tps_limited` flags. -/
structure CSState where
  tps_limit : Nat
  cc_goal : Nat
  needs_clear : Bool
  tps_limited : Bool
deriving DecidableEq, Repr

/-- `ConcurrentSampler::set_goal_tps_unchecked`: when the goal differs from
the sampler's current `tps_limit`, flag the sample window for clearing,
update the controller goal, and update the sampler limit. -/
def cs_set_goal_tps_unchecked (s : CSState) (goal_tps : Nat) : CSState :=
  if goal_tps ≠ s.tps_limit then
    { s with needs_clear := true, cc_goal := goal_tps, tps_limit := goal_tps }
  else s

/-- `ConcurrentSampler::set_goal_tps`: once `tps_limited` has latched, a
goal above the current limit is ignored (only logged). -/
def cs_set_goal_tps (s : CSState) (goal_tps : Nat) : CSState :=
  if s.tps_limited = true ∧ s.tps_limit < goal_tps then s
  else cs_set_goal_tps_unchecked s goal_tps

/-- A `TpsData` record (`balter-core`), counters as `u64`, elapsed time in
nanoseconds. -/
structure TpsData where
  elapsed : Nat
  success_count : Nat
  error_count : Nat
deriving DecidableEq, Repr

/-- `TpsData::total`: `success_count + error_count` as `u64` (wrapping). -/
def TpsData.total (d : TpsData) : Nat := (d.success_count + d.error_count) % 2 ^ 64

/-- The initial sampler interval of 200 ms, in nanoseconds
(`interval(Duration::from_millis(200))` in `TpsSampler::new`). -/
def INITIAL_INTERVAL_NS : Nat := 200000000

/-- The interval-period update performed at the end of
`TpsSampler::sample_tps`: `if data.total() > 2_000 { let new_interval =
self.interval.period() / 2; self.interval = interval(new_interval); ... }`.
`Duration` division by 2 is exact integer division of the nanosecond
count. -/
def next_interval_period (period : Nat) (d : TpsData) : Nat :=
  if 2000 < d.total then period / 2 else period

/-- The interval period after a sequence of `sample_tps` calls returning
the given `TpsData` records. -/
def run_interval_periods (period : Nat) : List TpsData → Nat
  | [] => period
  | d :: rest => run_interval_periods (next_interval_period period d) rest

/-- `ScenarioKind` from `balter-core` config. -/
inductive ScenarioKind where
  | once
  | tps (n : Nat)
  | saturate (error_rate : ℚ)
  | direct (tps_limit : Nat) (concurrency : Nat)
deriving DecidableEq, Repr

/-- `ScenarioConfig`: name, run duration (nanoseconds), kind. -/
structure ScenarioConfig where
  name : String
  duration : Nat
  kind : ScenarioKind
deriving DecidableEq, Repr

/-- Modelled from the spec: `ScenarioConfig::goal_tps` (the config source
file is not under `src/`); §6 gives `kind: Once | Tps(u32) | Saturate(f64)
| Direct(u32,usize)` and `run_tps` reads `config.goal_tps().unwrap()`, so
the accessor yields the `Tps` payload when present. -/
def ScenarioConfig.goal_tps (c : ScenarioConfig) : Option Nat :=
  match c.kind with
  | .tps n => some n
  | _ => none

/-- Modelled from the spec: `ScenarioConfig::set_goal_tps` (the config
source file is not under `src/`); §4.8: the runner "clones the config with
`duration -= elapsed` and `goal_tps = surplus`", so the setter stores the
new `Tps` goal. -/
def ScenarioConfig.set_goal_tps (c : ScenarioConfig) (n : Nat) : ScenarioConfig :=
  { c with kind := .tps n }

/-- `distribute_work` from `goal_tps.rs`: clone the config, subtract the
elapsed time from the duration (`Duration` subtraction panics on
underflow), and set the goal to `goal_tps().unwrap() - self_tps as u32`
(the `f64` to `u32` cast saturates; the `u32` subtraction wraps in release
builds).  The resulting config is the one offered to the distribution
channel by the spawned task. -/
def distribute_work (config : ScenarioConfig) (elapsed : Nat) (self_tps : Nat) :
    Except Panic ScenarioConfig :=
  if config.duration < elapsed then .error .durationSubUnderflow
  else
    let new_config := { config with duration := config.duration - elapsed }
    match new_config.goal_tps with
    | none => .error .unwrapNone
    | some g =>
      let new_tps := (g + 2 ^ 32 - min self_tps U32_MAX) % 2 ^ 32
      .ok (new_config.set_goal_tps new_tps)

/-- `TpsSampler::set_concurrency` (`tps_sampler.rs`): stores the new pool
size, except that a pool size of 0 outside shutdown is a panic. -/
def tps_sampler_set_concurrency (n : Nat) : Except Panic Nat :=
  if n ≠ 0 then .ok n else .error .setConcurrencyZero

/-! ### Helper lemmas -/

theorem two_pow_pos (w : Nat) : 0 < 2 ^ w :=
  Nat.pos_pow_of_pos w (by norm_num)

/-- Wrapping subtraction `(a + 2^w - c) % 2^w` computes the exact
difference when no underflow occurs. -/
theorem wrap_mod_sub (w a c : Nat) (hca : c ≤ a) (ha : a < 2 ^ w) :
    (a + 2 ^ w - c) % 2 ^ w = a - c := by
  have h1 : a + 2 ^ w - c = (a - c) + 2 ^ w := by omega
  rw [h1, Nat.add_mod_right, Nat.mod_eq_of_lt (by omega)]

theorem usize_max_lt : USIZE_MAX < 2 ^ 64 := by
  have := two_pow_pos 64
  unfold USIZE_MAX
  omega

theorem one_le_usize_max : 1 ≤ USIZE_MAX := by
  unfold USIZE_MAX
  norm_num

theorem propose_le_max (c : Nat) (g m : ℚ) : propose_concurrency c g m ≤ USIZE_MAX := by
  unfold propose_concurrency
  split
  · split
    · exact le_refl _
    · exact Nat.zero_le _
  · exact min_le_right _ _

theorem propose_pos (c : Nat) (g m : ℚ)
    (hc : 1 ≤ c) (hg : (1 : ℚ) ≤ g) (hm : 0 ≤ m) :
    1 ≤ propose_concurrency c g m := by
  unfold propose_concurrency
  split
  · rw [if_pos ⟨by omega, by linarith⟩]
    exact one_le_usize_max
  · rename_i hm0
    have hmpos : 0 < m := lt_of_le_of_ne hm (Ne.symm hm0)
    have hx : (0 : ℚ) < (c : ℚ) * (g / m) := by
      have h1 : (0 : ℚ) < (c : ℚ) := by exact_mod_cast Nat.lt_of_lt_of_le Nat.zero_lt_one hc
      have h2 : (0 : ℚ) < g / m := div_pos (by linarith) hmpos
      positivity
    have hceil : 0 < ⌈(c : ℚ) * (g / m)⌉ := Int.ceil_pos.mpr hx
    unfold ratCeilToUsize
    have h3 : 1 ≤ (⌈(c : ℚ) * (g / m)⌉).toNat := by omega
    exact le_min h3 one_le_usize_max

theorem measured_le_of_error (g m : ℚ) (hg : (1 : ℚ) ≤ g)
    (herr : 1 / 20 ≤ (g - m) / g) : m ≤ (19 / 20) * g := by
  have hg0 : (0 : ℚ) < g := by linarith
  have h1 : (1 / 20) * g ≤ g - m := (le_div_iff₀ hg0).mp herr
  linarith

theorem propose_ge (c : Nat) (g m : ℚ)
    (hg : (1 : ℚ) ≤ g) (hm : 0 ≤ m) (herr : 1 / 20 ≤ (g - m) / g)
    (hcmax : c ≤ USIZE_MAX) :
    c ≤ propose_concurrency c g m := by
  have hg0 : (0 : ℚ) < g := by linarith
  have hmle : m ≤ (19 / 20) * g := measured_le_of_error g m hg herr
  unfold propose_concurrency
  split
  · rcases Nat.eq_zero_or_pos c with hc0 | hc0
    · subst hc0
      exact Nat.zero_le _
    · rw [if_pos ⟨by omega, hg0⟩]
      exact hcmax
  · rename_i hm0
    have hmpos : 0 < m := lt_of_le_of_ne hm (Ne.symm hm0)
    have hdiv : (1 : ℚ) ≤ g / m := by
      rw [one_le_div hmpos]
      nlinarith
    have hx : (c : ℚ) ≤ (c : ℚ) * (g / m) := by
      nlinarith [Nat.cast_nonneg (α := ℚ) c]
    have hceil : (c : ℤ) ≤ ⌈(c : ℚ) * (g / m)⌉ := by
      calc (c : ℤ) = ⌈((c : Nat) : ℚ)⌉ := by rw [Int.ceil_natCast]
        _ ≤ ⌈(c : ℚ) * (g / m)⌉ := Int.ceil_le_ceil hx
    unfold ratCeilToUsize
    refine le_min (by omega) hcmax

theorem clamped_pos (c : Nat) (g m : ℚ)
    (hc : 1 ≤ c) (hg : (1 : ℚ) ≤ g) (hm : 0 ≤ m) :
    1 ≤ clamped_concurrency c g m := by
  simp only [clamped_concurrency]
  split
  · omega
  · exact propose_pos c g m hc hg hm

theorem clamped_bounds (c : Nat) (g m : ℚ)
    (hg : (1 : ℚ) ≤ g) (hm : 0 ≤ m) (herr : 1 / 20 ≤ (g - m) / g)
    (hcmax : c ≤ USIZE_MAX) :
    c ≤ clamped_concurrency c g m ∧ clamped_concurrency c g m ≤ c + MAX_CHANGE := by
  have hge := propose_ge c g m hg hm herr hcmax
  have hle := propose_le_max c g m
  have hlt : propose_concurrency c g m < 2 ^ 64 := lt_of_le_of_lt hle usize_max_lt
  simp only [clamped_concurrency]
  split
  · exact ⟨Nat.le_add_right _ _, le_refl _⟩
  · rename_i hstep
    rw [wrap_mod_sub 64 _ c hge hlt] at hstep
    constructor
    · exact hge
    · omega

theorem detect_eq_some (ms : List (Nat × ℚ))
    (hcond : underpoweredCond ms) (h0 : ratTruncToU32 (thirdFromLast ms).2 ≠ 0) :
    detect_underpowered ms =
      .ok (some (ratTruncToU32 (thirdFromLast ms).2, (thirdFromLast ms).1)) := by
  simp only [detect_underpowered]
  rw [if_pos hcond, if_neg h0]

theorem detect_eq_error (ms : List (Nat × ℚ))
    (hcond : underpoweredCond ms) (h0 : ratTruncToU32 (thirdFromLast ms).2 = 0) :
    detect_underpowered ms = .error .unwrapNone := by
  simp only [detect_underpowered]
  rw [if_pos hcond, if_pos h0]

theorem detect_eq_none (ms : List (Nat × ℚ)) (hcond : ¬ underpoweredCond ms) :
    detect_underpowered ms = .ok none := by
  simp only [detect_underpowered]
  rw [if_neg hcond]

theorem detect_some_pos (ms : List (Nat × ℚ)) (v cstar : Nat)
    (h : detect_underpowered ms = .ok (some (v, cstar))) : 1 ≤ v := by
  simp only [detect_underpowered] at h
  split at h
  · split at h
    · exact absurd h (by simp)
    · rename_i hne
      simp only [Except.ok.injEq, Option.some.injEq, Prod.mk.injEq] at h
      omega
  · exact absurd h (by simp)

theorem adjust_eq_of_detect_none (s : CAState) (m : ℚ)
    (hnz : clamped_concurrency s.concurrency (s.tps_limit : ℚ) m ≠ 0)
    (hdet : detect_underpowered (s.measurements ++ [(s.concurrency, m)]) = .ok none) :
    adjust_concurrency s m =
      .ok (clamped_concurrency s.concurrency (s.tps_limit : ℚ) m,
           { s with measurements := s.measurements ++ [(s.concurrency, m)] }) := by
  simp only [adjust_concurrency]
  rw [if_neg hnz, hdet]

theorem adjust_eq_of_detect_some (s : CAState) (m : ℚ) (v cstar : Nat)
    (hnz : clamped_concurrency s.concurrency (s.tps_limit : ℚ) m ≠ 0)
    (hdet : detect_underpowered (s.measurements ++ [(s.concurrency, m)]) = .ok (some (v, cstar))) :
    adjust_concurrency s m =
      .ok (ratFloorToUsize ((cstar : ℚ) * (3 / 4)),
           { base_set_tps_limit
               { s with measurements := s.measurements ++ [(s.concurrency, m)] } v with
             tps_limited := true }) := by
  simp only [adjust_concurrency]
  rw [if_neg hnz, hdet]

theorem adjust_eq_of_detect_error (s : CAState) (m : ℚ) (e : Panic)
    (hnz : clamped_concurrency s.concurrency (s.tps_limit : ℚ) m ≠ 0)
    (hdet : detect_underpowered (s.measurements ++ [(s.concurrency, m)]) = .error e) :
    adjust_concurrency s m = .error e := by
  simp only [adjust_concurrency]
  rw [if_neg hnz, hdet]

theorem base_set_concurrency_eq (s : CAState) (n : Nat) (hn : n ≠ 0) :
    base_set_concurrency s n = .ok { s with concurrency := n } := by
  simp only [base_set_concurrency]
  rw [if_pos hn]

theorem base_set_concurrency_ok (s : CAState) (n : Nat) (s2 : CAState)
    (h : base_set_concurrency s n = .ok s2) :
    n ≠ 0 ∧ s2 = { s with concurrency := n } := by
  simp only [base_set_concurrency] at h
  split at h
  · rename_i hn
    simp only [Except.ok.injEq] at h
    exact ⟨hn, h.symm⟩
  · exact absurd h (by simp)

theorem ca_sample_eq_stable (s : CAState) (m : ℚ)
    (h : ((s.tps_limit : ℚ) - m) / (s.tps_limit : ℚ) < 1 / 20) :
    ca_sample s m = .ok (true, s) := by
  simp only [ca_sample]
  rw [if_pos h]

theorem ca_sample_eq_adjust (s : CAState) (m : ℚ)
    (h : ¬ ((s.tps_limit : ℚ) - m) / (s.tps_limit : ℚ) < 1 / 20) :
    ca_sample s m =
      match adjust_concurrency s m with
      | .error e => .error e
      | .ok (nc, s1) =>
        match base_set_concurrency s1 nc with
        | .error e => .error e
        | .ok s2 => .ok (false, s2) := by
  simp only [ca_sample]
  rw [if_neg h]

/-- Inversion of a successful `sample` call on the adjust branch: the
inner `adjust_concurrency` succeeded with a nonzero concurrency, which was
applied to the sampler state. -/
theorem ca_sample_ok_inv (s : CAState) (m : ℚ) (b : Bool) (s2 : CAState)
    (herr : ¬ ((s.tps_limit : ℚ) - m) / (s.tps_limit : ℚ) < 1 / 20)
    (hrun : ca_sample s m = .ok (b, s2)) :
    ∃ (nc : Nat) (s1 : CAState), adjust_concurrency s m = .ok (nc, s1) ∧ nc ≠ 0 ∧
      b = false ∧ s2 = { s1 with concurrency := nc } := by
  rw [ca_sample_eq_adjust s m herr] at hrun
  cases hadj : adjust_concurrency s m with
  | error e =>
    rw [hadj] at hrun
    exact absurd hrun (by simp)
  | ok p =>
    obtain ⟨nc, s1⟩ := p
    rw [hadj] at hrun
    cases hset : base_set_concurrency s1 nc with
    | error e =>
      simp only [hset] at hrun
      exact absurd hrun (by simp)
    | ok s3 =>
      simp only [hset, Except.ok.injEq, Prod.mk.injEq] at hrun
      obtain ⟨hn, hs3⟩ := base_set_concurrency_ok s1 nc s3 hset
      exact ⟨nc, s1, rfl, hn, hrun.1.symm, by rw [← hrun.2, hs3]⟩

/-- Any non-panicking `sample` call preserves positivity of the applied
concurrency: the stable branch leaves the state alone, and the adjust
branch goes through `set_concurrency`, which rejects 0. -/
theorem ca_sample_concurrency_pos (s : CAState) (m : ℚ) (b : Bool) (s2 : CAState)
    (hc : 1 ≤ s.concurrency) (h : ca_sample s m = .ok (b, s2)) :
    1 ≤ s2.concurrency := by
  by_cases herr : ((s.tps_limit : ℚ) - m) / (s.tps_limit : ℚ) < 1 / 20
  · rw [ca_sample_eq_stable s m herr] at h
    simp only [Except.ok.injEq, Prod.mk.injEq] at h
    rw [← h.2]
    exact hc
  · rw [ca_sample_eq_adjust s m herr] at h
    cases hadj : adjust_concurrency s m with
    | error e =>
      rw [hadj] at h
      exact absurd h (by simp)
    | ok p =>
      rw [hadj] at h
      obtain ⟨nc, s1⟩ := p
      cases hset : base_set_concurrency s1 nc with
      | error e =>
        simp only [hset] at h
        exact absurd h (by simp)
      | ok s3 =>
        simp only [hset] at h
        obtain ⟨hn, hs3⟩ := base_set_concurrency_ok s1 nc s3 hset
        simp only [Except.ok.injEq, Prod.mk.injEq] at h
        rw [← h.2, hs3]
        show 1 ≤ nc
        omega

theorem runSamples_concurrency_pos (ms : List ℚ) (s s2 : CAState)
    (hc : 1 ≤ s.concurrency) (h : runSamples s ms = .ok s2) :
    1 ≤ s2.concurrency := by
  induction ms generalizing s with
  | nil =>
    simp only [runSamples, Except.ok.injEq] at h
    rw [← h]
    exact hc
  | cons m rest ih =>
    simp only [runSamples] at h
    cases hstep : ca_sample s m with
    | error e =>
      rw [hstep] at h
      exact absurd h (by simp)
    | ok p =>
      rw [hstep] at h
      obtain ⟨b, s1⟩ := p
      exact ih s1 (ca_sample_concurrency_pos s m b s1 hc hstep) h

theorem next_interval_le (p : Nat) (d : TpsData) : next_interval_period p d ≤ p := by
  unfold next_interval_period
  split
  · exact Nat.div_le_self p 2
  · exact le_refl p

theorem run_interval_le (ds : List TpsData) (p : Nat) : run_interval_periods p ds ≤ p := by
  induction ds generalizing p with
  | nil => exact le_refl p
  | cons d rest ih =>
    simp only [run_interval_periods]
    exact le_trans (ih (next_interval_period p d)) (next_interval_le p d)

/-! ### Claim theorems -/

attribute [local semireducible] Rat.add Rat.sub Rat.mul Rat.inv

/-- C10: in the adjust branch (`error ≥ 0.05`, positive goal, nonnegative
measured tps), the proposed concurrency `ceil(concurrency × goal/measured)`
is never below the current concurrency, so the unsigned subtraction
`new_concurrency - concurrency` computes the exact step without
underflowing; with `measured_tps = 0` the saturating float-to-integer cast
yields `usize::MAX`. -/
theorem c10_no_underflow (c : Nat) (g m : ℚ)
    (hg : (1 : ℚ) ≤ g) (hm : 0 ≤ m) (herr : 1 / 20 ≤ (g - m) / g)
    (hcmax : c ≤ USIZE_MAX) :
    c ≤ propose_concurrency c g m ∧
    (propose_concurrency c g m + 2 ^ 64 - c) % 2 ^ 64 = propose_concurrency c g m - c ∧
    (m = 0 → 1 ≤ c → propose_concurrency c g m = USIZE_MAX) := by
  have h1 := propose_ge c g m hg hm herr hcmax
  have h2 := propose_le_max c g m
  refine ⟨h1, wrap_mod_sub 64 _ c h1 (lt_of_le_of_lt h2 usize_max_lt), ?_⟩
  intro hm0 hc
  subst hm0
  have hg0 : (0 : ℚ) < g := by linarith
  unfold propose_concurrency
  rw [if_pos rfl, if_pos ⟨by omega, hg0⟩]

/-- C10 witness. -/
theorem c10_witness : 4 ≤ propose_concurrency 4 1000 100 :=
  (c10_no_underflow 4 1000 100 (by norm_num) (by norm_num) (by norm_num) (by decide)).1

/-- C6: after a `sample_tps` call the interval period is halved exactly
when the sample's total event count exceeds 2000 and is unchanged
otherwise; consequently the period is monotone non-increasing over any
sequence of samples, in particular starting from the initial 200 ms. -/
theorem c6_adaptive_interval (p : Nat) (d : TpsData) (ds : List TpsData) :
    (2000 < d.total → next_interval_period p d = p / 2) ∧
    (d.total ≤ 2000 → next_interval_period p d = p) ∧
    run_interval_periods p ds ≤ p ∧
    run_interval_periods INITIAL_INTERVAL_NS ds ≤ INITIAL_INTERVAL_NS := by
  refine ⟨?_, ?_, run_interval_le ds p, run_interval_le ds INITIAL_INTERVAL_NS⟩
  · intro h
    unfold next_interval_period
    rw [if_pos h]
  · intro h
    unfold next_interval_period
    rw [if_neg (not_lt.mpr h)]

/-- C6 witness: a sample with 2100 events halves a 200 ms period. -/
theorem c6_witness :
    next_interval_period 200000000 ⟨200000000, 1500, 600⟩ = 100000000 ∧
    run_interval_periods INITIAL_INTERVAL_NS [⟨200000000, 1500, 600⟩] ≤ INITIAL_INTERVAL_NS :=
  ⟨(c6_adaptive_interval 200000000 ⟨200000000, 1500, 600⟩ []).1 (by decide),
   (c6_adaptive_interval 200000000 ⟨200000000, 1500, 600⟩ [⟨200000000, 1500, 600⟩]).2.2.2⟩

/-- C7: on a TpsLimited decision at `max_tps`, the config offered to the
distribution channel carries `goal_tps = original_goal - max_tps` and
`duration = original_duration - elapsed`. -/
theorem c7_distribution_surplus (name : String) (dur elapsed g self_tps : Nat)
    (hdur : elapsed ≤ dur) (hg : g ≤ U32_MAX) (hst : self_tps ≤ g) :
    distribute_work ⟨name, dur, .tps g⟩ elapsed self_tps =
      .ok ⟨name, dur - elapsed, .tps (g - self_tps)⟩ := by
  have hg32 : g < 2 ^ 32 := by
    have := two_pow_pos 32
    unfold U32_MAX at hg
    omega
  have hmin : min self_tps U32_MAX = self_tps := min_eq_left (le_trans hst hg)
  simp only [distribute_work, ScenarioConfig.goal_tps, ScenarioConfig.set_goal_tps]
  rw [if_neg (not_lt.mpr hdur), hmin, wrap_mod_sub 32 g self_tps hst hg32]

/-- C7 witness: goal 10000 with measured cap 4000 yields a surplus config
with goal 6000 and the remaining duration. -/
theorem c7_witness :
    distribute_work ⟨"scenario", 600000000000, .tps 10000⟩ 120000000000 4000 =
      .ok ⟨"scenario", 480000000000, .tps 6000⟩ :=
  c7_distribution_surplus "scenario" 600000000000 120000000000 10000 4000
    (by norm_num) (by decide) (by norm_num)

/-- C4: once `tps_limited` has latched, `set_tps_limit` (and
`ConcurrentSampler::set_goal_tps`) with a value strictly above the current
limit leaves the state unchanged, while a value less than or equal to the
current limit is applied. -/
theorem c4_latched_limit (s : CAState) (t : CSState) (n : Nat)
    (hs : s.tps_limited = true) (ht : t.tps_limited = true) :
    (s.tps_limit < n → set_tps_limit s n = s) ∧
    (n ≤ s.tps_limit → set_tps_limit s n = { s with tps_limit := n }) ∧
    (t.tps_limit < n → cs_set_goal_tps t n = t) ∧
    (n ≤ t.tps_limit → (cs_set_goal_tps t n).tps_limit = n) := by
  refine ⟨?_, ?_, ?_, ?_⟩
  · intro h
    simp only [set_tps_limit]
    rw [if_pos ⟨h, hs⟩]
  · intro h
    simp only [set_tps_limit]
    rw [if_neg (by intro hco; exact absurd hco.1 (not_lt.mpr h))]
    simp only [base_set_tps_limit]
    by_cases hne : n = s.tps_limit
    · rw [if_neg (not_not_intro hne)]
      subst hne
      rfl
    · rw [if_pos hne]
  · intro h
    simp only [cs_set_goal_tps]
    rw [if_pos ⟨ht, h⟩]
  · intro h
    simp only [cs_set_goal_tps]
    rw [if_neg (by intro hco; exact absurd hco.2 (not_lt.mpr h))]
    simp only [cs_set_goal_tps_unchecked]
    by_cases hne : n = t.tps_limit
    · rw [if_neg (not_not_intro hne)]
      exact hne.symm
    · rw [if_pos hne]

/-- C4 witness: with the limit latched at 100, setting 150 is ignored and
setting 80 is applied, for both setter entry points. -/
theorem c4_witness :
    set_tps_limit ⟨10, 100, [], 10, true⟩ 150 = ⟨10, 100, [], 10, true⟩ ∧
    set_tps_limit ⟨10, 100, [], 10, true⟩ 80 = ⟨10, 80, [], 10, true⟩ ∧
    cs_set_goal_tps ⟨100, 100, false, true⟩ 150 = ⟨100, 100, false, true⟩ ∧
    (cs_set_goal_tps ⟨100, 100, false, true⟩ 80).tps_limit = 80 :=
  ⟨(c4_latched_limit ⟨10, 100, [], 10, true⟩ ⟨100, 100, false, true⟩ 150 rfl rfl).1 (by decide),
   (c4_latched_limit ⟨10, 100, [], 10, true⟩ ⟨100, 100, false, true⟩ 80 rfl rfl).2.1 (by decide),
   (c4_latched_limit ⟨10, 100, [], 10, true⟩ ⟨100, 100, false, true⟩ 150 rfl rfl).2.2.1 (by decide),
   (c4_latched_limit ⟨10, 100, [], 10, true⟩ ⟨100, 100, false, true⟩ 80 rfl rfl).2.2.2 (by decide)⟩

/-- C2 (amended): a full window whose mean tps lies strictly above
`0.95 · goal` (and at most `1.05 · goal`) makes `sample` report Stable and
leave the state — concurrency and measurement history included —
completely unchanged.  (At exactly `0.95 · goal` the error equals `0.05`
and the adjust branch runs instead; see the counterexample.) -/
theorem c2_stable_open_interval (s : CAState) (m : ℚ)
    (hg : 1 ≤ s.tps_limit)
    (hlo : (19 / 20 : ℚ) * (s.tps_limit : ℚ) < m)
    (hhi : m ≤ (21 / 20 : ℚ) * (s.tps_limit : ℚ)) :
    ca_sample s m = .ok (true, s) := by
  have hgq : (1 : ℚ) ≤ (s.tps_limit : ℚ) := by exact_mod_cast hg
  have hg0 : (0 : ℚ) < (s.tps_limit : ℚ) := by linarith
  apply ca_sample_eq_stable
  rw [div_lt_iff₀ hg0]
  nlinarith [hhi]

/-- C2 counterexample: at a mean tps of exactly `0.95 · goal` (950 against
goal 1000, inside the claim's closed interval) the controller does not
return Stable: it runs the adjust branch, appends a measurement, and
raises the concurrency from 4 to 5. -/
theorem c2_boundary_not_stable :
    (19 / 20 : ℚ) * ((1000 : Nat) : ℚ) ≤ 950 ∧
    (950 : ℚ) ≤ (21 / 20 : ℚ) * ((1000 : Nat) : ℚ) ∧
    ca_sample ⟨4, 1000, [], 4, false⟩ 950 =
      .ok (false, ⟨5, 1000, [(4, 950)], 4, false⟩) := by
  refine ⟨by norm_num, by norm_num, by decide⟩

/-- C2 witness: mean 960 against goal 1000 is Stable with the state
unchanged. -/
theorem c2_witness :
    ca_sample ⟨20, 1000, [], 20, false⟩ 960 = .ok (true, ⟨20, 1000, [], 20, false⟩) :=
  c2_stable_open_interval ⟨20, 1000, [], 20, false⟩ 960 (by norm_num)
    (by norm_num) (by norm_num)

/-- C3 (amended): whenever `detect_underpowered` actually produces a
TpsLimited decision, the derived `tps_limit` is strictly positive; a
third-from-last measurement whose tps truncates to zero instead makes the
`NonZeroU32::new(..).unwrap()` panic (fail fast) — it is not merely
logged, and the run does not continue. -/
theorem c3_limit_positive (ms : List (Nat × ℚ)) (v cstar : Nat)
    (h : detect_underpowered ms = .ok (some (v, cstar))) : 1 ≤ v :=
  detect_some_pos ms v cstar h

/-- C3 counterexample: a triggering history whose third-from-last tps is
`1/2` (truncating to zero) makes `adjust_concurrency` panic via the
`unwrap`, contradicting "logged, not panicked; the run continues". -/
theorem c3_zero_limit_panics :
    underpoweredCond ([(1, 2), (2, (1 : ℚ) / 2), (3, (1 : ℚ) / 4)] ++ [(4, (1 : ℚ) / 8)]) ∧
    ratTruncToU32
      (thirdFromLast ([(1, 2), (2, (1 : ℚ) / 2), (3, (1 : ℚ) / 4)] ++ [(4, (1 : ℚ) / 8)])).2 = 0 ∧
    adjust_concurrency ⟨4, 1000, [(1, 2), (2, (1 : ℚ) / 2), (3, (1 : ℚ) / 4)], 4, false⟩
      ((1 : ℚ) / 8) = .error .unwrapNone := by
  refine ⟨by decide, by decide, by decide⟩

/-- C3 witness: a triggering history with third-from-last tps 11 yields a
positive limit. -/
theorem c3_witness :
    detect_underpowered [(1, 10), (2, 11), (3, 11), (4, 11)] = .ok (some (11, 2)) ∧ 1 ≤ 11 :=
  ⟨by decide, c3_limit_positive [(1, 10), (2, 11), (3, 11), (4, 11)] 11 2 (by decide)⟩

/-- C1: in the adjust branch, when the appended history satisfies the
slope trigger (more than 2 slopes, last two below 1) and the selected
measurement's tps truncates to a nonzero value, the decision is
TpsLimited: the new `tps_limit` is that truncation, the returned
concurrency is `0.75` of that measurement's concurrency (floored), and
`tps_limited` latches; when the slope condition fails no TpsLimited
decision is produced and the limited flag and limit are untouched. -/
theorem c1_underpowered_decision (s : CAState) (m : ℚ)
    (hc : 1 ≤ s.concurrency) (hg : 1 ≤ s.tps_limit) (hm : 0 ≤ m) :
    (underpoweredCond (s.measurements ++ [(s.concurrency, m)]) →
      1 ≤ ratTruncToU32 (thirdFromLast (s.measurements ++ [(s.concurrency, m)])).2 →
      ∃ s1 : CAState,
        adjust_concurrency s m =
          .ok (ratFloorToUsize
            (((thirdFromLast (s.measurements ++ [(s.concurrency, m)])).1 : ℚ) * (3 / 4)), s1) ∧
        s1.tps_limited = true ∧
        s1.tps_limit = ratTruncToU32 (thirdFromLast (s.measurements ++ [(s.concurrency, m)])).2) ∧
    (¬ underpoweredCond (s.measurements ++ [(s.concurrency, m)]) →
      ∃ (n : Nat) (s1 : CAState),
        adjust_concurrency s m = .ok (n, s1) ∧
        s1.tps_limited = s.tps_limited ∧ s1.tps_limit = s.tps_limit) := by
  have hgq : (1 : ℚ) ≤ (s.tps_limit : ℚ) := by exact_mod_cast hg
  have hnz : clamped_concurrency s.concurrency (s.tps_limit : ℚ) m ≠ 0 := by
    have := clamped_pos s.concurrency (s.tps_limit : ℚ) m hc hgq hm
    omega
  constructor
  · intro hcond htrunc
    have hdet := detect_eq_some (s.measurements ++ [(s.concurrency, m)]) hcond (by omega)
    refine ⟨_, adjust_eq_of_detect_some s m _ _ hnz hdet, rfl, ?_⟩
    show (base_set_tps_limit { s with measurements := s.measurements ++ [(s.concurrency, m)] }
      (ratTruncToU32 (thirdFromLast (s.measurements ++ [(s.concurrency, m)])).2)).tps_limit = _
    simp only [base_set_tps_limit]
    split
    · rfl
    · rename_i hne
      exact (not_not.mp hne).symm
  · intro hcond
    exact ⟨clamped_concurrency s.concurrency (s.tps_limit : ℚ) m,
      { s with measurements := s.measurements ++ [(s.concurrency, m)] },
      adjust_eq_of_detect_none s m hnz
        (detect_eq_none (s.measurements ++ [(s.concurrency, m)]) hcond), rfl, rfl⟩

/-- C1 witness: history `[(4,100),(40,150),(140,200)]` at concurrency 240,
measured 210, triggers and yields TpsLimited(150, 30 = floor(0.75·40)). -/
theorem c1_witness :
    underpoweredCond ([(4, 100), (40, 150), (140, 200)] ++ [((240 : Nat), (210 : ℚ))]) ∧
    ∃ s1 : CAState,
      adjust_concurrency ⟨240, 1000, [(4, 100), (40, 150), (140, 200)], 4, false⟩ 210 =
        .ok (30, s1) ∧ s1.tps_limited = true ∧ s1.tps_limit = 150 :=
  ⟨by decide,
   (c1_underpowered_decision ⟨240, 1000, [(4, 100), (40, 150), (140, 200)], 4, false⟩ 210
      (by decide) (by decide) (by decide)).1 (by decide) (by decide)⟩

/-- C5: every `sample` decision other than the TpsLimited transition moves
the concurrency by at most `MAX_CHANGE = 100`, and never downward: the
proposal is clamped to `current + 100` whenever the step exceeds 100. -/
theorem c5_step_bounded (s : CAState) (m : ℚ) (b : Bool) (s2 : CAState)
    (hc : 1 ≤ s.concurrency) (hcmax : s.concurrency ≤ USIZE_MAX)
    (hg : 1 ≤ s.tps_limit) (hm : 0 ≤ m)
    (hdet : detect_underpowered (s.measurements ++ [(s.concurrency, m)]) = .ok none)
    (hrun : ca_sample s m = .ok (b, s2)) :
    s.concurrency ≤ s2.concurrency ∧ s2.concurrency ≤ s.concurrency + MAX_CHANGE := by
  have hgq : (1 : ℚ) ≤ (s.tps_limit : ℚ) := by exact_mod_cast hg
  by_cases herr : ((s.tps_limit : ℚ) - m) / (s.tps_limit : ℚ) < 1 / 20
  · rw [ca_sample_eq_stable s m herr] at hrun
    simp only [Except.ok.injEq, Prod.mk.injEq] at hrun
    rw [← hrun.2]
    exact ⟨le_refl _, Nat.le_add_right _ _⟩
  · have herr2 : 1 / 20 ≤ ((s.tps_limit : ℚ) - m) / (s.tps_limit : ℚ) := not_lt.mp herr
    have hnz : clamped_concurrency s.concurrency (s.tps_limit : ℚ) m ≠ 0 := by
      have := clamped_pos s.concurrency (s.tps_limit : ℚ) m hc hgq hm
      omega
    have hb := clamped_bounds s.concurrency (s.tps_limit : ℚ) m hgq hm herr2 hcmax
    obtain ⟨nc, s1, hadj, hn0, hbf, hs2⟩ := ca_sample_ok_inv s m b s2 herr hrun
    rw [adjust_eq_of_detect_none s m hnz hdet] at hadj
    simp only [Except.ok.injEq, Prod.mk.injEq] at hadj
    rw [hs2]
    show s.concurrency ≤ nc ∧ nc ≤ s.concurrency + MAX_CHANGE
    rw [← hadj.1]
    exact hb

/-- C5 witness: from concurrency 4 at goal 1000 with measured 100, the
decision raises concurrency to 40, within the 100-step bound. -/
theorem c5_witness :
    ca_sample ⟨4, 1000, [], 4, false⟩ 100 = .ok (false, ⟨40, 1000, [(4, 100)], 4, false⟩) ∧
    (4 ≤ 40 ∧ 40 ≤ 4 + MAX_CHANGE) :=
  ⟨by decide,
   c5_step_bounded ⟨4, 1000, [], 4, false⟩ 100 false ⟨40, 1000, [(4, 100)], 4, false⟩
     (by decide) (by decide) (by decide) (by decide) (by decide) (by decide)⟩

/-- C8 (amended): in a non-tps-limited state, every decision that is not
the TpsLimited transition (the state stays non-limited) keeps
`new_concurrency ≥ current_concurrency`; the TpsLimited transition itself
applies the 0.75 pull-back and may decrease the concurrency. -/
theorem c8_search_monotone (s : CAState) (m : ℚ) (b : Bool) (s2 : CAState)
    (hc : 1 ≤ s.concurrency) (hcmax : s.concurrency ≤ USIZE_MAX)
    (hg : 1 ≤ s.tps_limit) (hm : 0 ≤ m)
    (hnl : s.tps_limited = false)
    (hrun : ca_sample s m = .ok (b, s2)) (hnl2 : s2.tps_limited = false) :
    s.concurrency ≤ s2.concurrency := by
  have hgq : (1 : ℚ) ≤ (s.tps_limit : ℚ) := by exact_mod_cast hg
  by_cases herr : ((s.tps_limit : ℚ) - m) / (s.tps_limit : ℚ) < 1 / 20
  · rw [ca_sample_eq_stable s m herr] at hrun
    simp only [Except.ok.injEq, Prod.mk.injEq] at hrun
    rw [← hrun.2]
  · have herr2 : 1 / 20 ≤ ((s.tps_limit : ℚ) - m) / (s.tps_limit : ℚ) := not_lt.mp herr
    have hnz : clamped_concurrency s.concurrency (s.tps_limit : ℚ) m ≠ 0 := by
      have := clamped_pos s.concurrency (s.tps_limit : ℚ) m hc hgq hm
      omega
    obtain ⟨nc, s1, hadj, hn0, hbf, hs2⟩ := ca_sample_ok_inv s m b s2 herr hrun
    cases hdet : detect_underpowered (s.measurements ++ [(s.concurrency, m)]) with
    | error e =>
      rw [adjust_eq_of_detect_error s m e hnz hdet] at hadj
      exact absurd hadj (by simp)
    | ok o =>
      cases o with
      | none =>
        have hb := clamped_bounds s.concurrency (s.tps_limit : ℚ) m hgq hm herr2 hcmax
        rw [adjust_eq_of_detect_none s m hnz hdet] at hadj
        simp only [Except.ok.injEq, Prod.mk.injEq] at hadj
        rw [hs2]
        show s.concurrency ≤ nc
        rw [← hadj.1]
        exact hb.1
      | some p =>
        obtain ⟨v, cstar⟩ := p
        rw [adjust_eq_of_detect_some s m v cstar hnz hdet] at hadj
        simp only [Except.ok.injEq, Prod.mk.injEq] at hadj
        have ht1 : s1.tps_limited = true := by
          rw [← hadj.2]
        have ht2 : s2.tps_limited = true := by
          rw [hs2]
          exact ht1
        exact absurd (ht2.symm.trans hnl2) (by simp)

/-- C8 counterexample: from the reachable non-limited state with history
`[(4,100),(40,150),(140,200)]` and concurrency 240 (built by three
decision cycles from concurrency 4 at goal 1000), the next decision is the
TpsLimited transition and applies concurrency 30 < 240 — the controller
does decrease concurrency on that decision. -/
theorem c8_pullback_decreases :
    runSamples ⟨4, 1000, [], 4, false⟩ [100, 150, 200] =
      .ok ⟨240, 1000, [(4, 100), (40, 150), (140, 200)], 4, false⟩ ∧
    (⟨240, 1000, [(4, 100), (40, 150), (140, 200)], 4, false⟩ : CAState).tps_limited = false ∧
    ca_sample ⟨240, 1000, [(4, 100), (40, 150), (140, 200)], 4, false⟩ 210 =
      .ok (false, ⟨30, 150, [(4, 100), (40, 150), (140, 200), (240, 210)], 4, true⟩) ∧
    (30 : Nat) < 240 := by
  refine ⟨by decide, by decide, by decide, by decide⟩

/-- C8 witness: a non-limited decision cycle that stays non-limited keeps
the concurrency non-decreasing (4 to 40). -/
theorem c8_witness :
    ca_sample ⟨4, 1000, [], 4, false⟩ 100 = .ok (false, ⟨40, 1000, [(4, 100)], 4, false⟩) ∧
    4 ≤ 40 :=
  ⟨by decide,
   c8_search_monotone ⟨4, 1000, [], 4, false⟩ 100 false ⟨40, 1000, [(4, 100)], 4, false⟩
     (by decide) (by decide) (by decide) (by decide) rfl (by decide) rfl⟩

/-- C9 (amended): while a run is active the stored pool size stays at
least 1 — `set_concurrency(0)` is a fatal panic, not a store — but a
controller TpsLimited decision can in fact ask for concurrency 0 (the
0.75 pull-back of a plateau-foot concurrency of 1), aborting the run with
that panic. -/
theorem c9_pool_positive (s : CAState) (ms : List ℚ) (s2 : CAState)
    (hc : 1 ≤ s.concurrency) (hrun : runSamples s ms = .ok s2) :
    1 ≤ s2.concurrency ∧
    tps_sampler_set_concurrency 0 = .error .setConcurrencyZero :=
  ⟨runSamples_concurrency_pos ms s s2 hc hrun, rfl⟩

/-- C9 counterexample: a run from concurrency 9 at goal 1000 whose
cascading TpsLimited pull-backs drive the concurrency down to 1 and then
produce a decision of `floor(0.75 · 1) = 0`, hitting the
`set_concurrency(0)` panic — a controller decision does apply 0. -/
theorem c9_zero_concurrency_reachable :
    runSamples ⟨9, 1000, [], 9, false⟩
      [900, 910, 910, 911, 800, 720, 648, 583, 524, 471, 423, 380, 342, 307, 276, 248,
       223, 200, 180] = .error .setConcurrencyZero := by
  decide

/-- C9 witness: a run that stays up keeps the pool size positive. -/
theorem c9_witness :
    1 ≤ (⟨4, 1000, [], 4, false⟩ : CAState).concurrency ∧
    tps_sampler_set_concurrency 0 = .error .setConcurrencyZero :=
  c9_pool_positive ⟨4, 1000, [], 4, false⟩ [] ⟨4, 1000, [], 4, false⟩ (by decide) rfl

end Balter
